import Mathlib

/-!
Verification of the video-to-knowledge pipeline (`transcribe_video.py`,
`app.py`).  The Python source is shallowly embedded: pure helpers become
Lean functions over `ℚ` (Python floats are modelled as exact rationals),
the filesystem becomes an association list keyed by a structured path
type that mirrors the repository's path-naming contract, and every
external effect (audio demux, transcription service, the two LLM chat
calls, frame decoding) becomes an oracle value supplied as a parameter.
-/

/-! ## Data model (spec section 3, `transcribe_video.py`) -/

/-- A time-aligned transcript segment returned by the transcription
service.  Field `stop` embeds the Python key `end` (a Lean keyword). -/
structure TranscriptSegment where
  start : ℚ
  stop : ℚ
  text : String
deriving DecidableEq

/-- A key moment produced by the Knowledge Distiller (`key_moments`
entries of the processed JSON): title, time range and translated text. -/
structure Moment where
  title : String
  start : ℚ
  stop : ℚ
  text : String
deriving DecidableEq

/-- The durable distillation artifact `<stem>_transcription.json`:
an overall summary plus the ordered key-moment list. -/
structure DistilledContent where
  summary : String
  key_moments : List Moment
deriving DecidableEq

/-- The quiz artifact `<stem>_quiz.json`.  The orchestrator claims only
ever compare quiz artifacts for identity, so the LLM-authored question
payload is carried as opaque strings. -/
structure Quiz where
  quiz_title : String
  questions : List String
deriving DecidableEq

/-- A glossary entry of `terms.json`: corrections mapping, domain key
terms and a topic hint. -/
structure Glossary where
  corrections : List (String × String)
  key_terms : List String
  topic_hint : String
deriving DecidableEq

/-- The empty glossary `{"corrections": {}, "key_terms": [], "topic_hint": ""}`
returned by `load_terms` when nothing matches. -/
def emptyGlossary : Glossary := ⟨[], [], ""⟩

/-! ## String helpers -/

/-- Boolean test that `needle` is a prefix of the character list `hay`
(helper for the substring test used by Python's `key in video_name`). -/
def startsWithChars : List Char → List Char → Bool
  | _, [] => true
  | [], _ :: _ => false
  | c :: t, n :: m => c = n && startsWithChars t m

/-- Boolean test that `needle` occurs contiguously inside `hay`. -/
def containsSub : List Char → List Char → Bool
  | [], needle => needle.isEmpty
  | c :: t, needle => startsWithChars (c :: t) needle || containsSub t needle

/-- Python's substring operator `needle in hay` on strings. -/
def strContains (hay needle : String) : Bool :=
  containsSub hay.data needle.data

/-- Python's `name.replace(' ', '_')` used to sanitize video names for
screenshot directories and quiz page names. -/
def sanitize (s : String) : String :=
  String.map (fun c => if c = ' ' then '_' else c) s

/-- Python's `int()` conversion on a rational: truncation toward zero. -/
def pyTrunc (q : ℚ) : ℤ := if 0 ≤ q then ⌊q⌋ else ⌈q⌉

/-- Zero-padded decimal rendering of width 3, Python's `f"{i:03d}"`. -/
def fmt03 (n : ℕ) : String :=
  let s := Nat.repr n
  String.mk (List.replicate (3 - s.length) '0') ++ s

/-! ## Term Glossary Matcher (`load_terms`, `transcribe_video.py` lines 36-59)

`terms.json` is a JSON object, i.e. an insertion-ordered table of
`key ↦ Glossary`; it is embedded as an association list.  A missing
file is embedded as `none`. -/

/-- The `for key, terms in all_terms.items()` loop of `load_terms`:
skip the reserved key `"default"`, return the value of the first key
that occurs as a literal substring of the video name. -/
def findMatch (video_name : String) : List (String × Glossary) → Option Glossary
  | [] => none
  | (key, terms) :: rest =>
    if key = "default" then findMatch video_name rest
    else if strContains video_name key then some terms
    else findMatch video_name rest

/-- `load_terms` of `transcribe_video.py`: empty glossary when
`terms.json` is absent; otherwise first-match over insertion order,
falling back to `all_terms.get("default", empty)`. -/
def load_terms (termsFile : Option (List (String × Glossary))) (video_name : String) :
    Glossary :=
  match termsFile with
  | none => emptyGlossary
  | some all_terms =>
    match findMatch video_name all_terms with
    | some terms => terms
    | none => (List.lookup "default" all_terms).getD emptyGlossary

/-! ## Frame Selector (`capture_screenshots`, `transcribe_video.py` lines 131-178) -/

/-- Candidate count of a moment:
`num_candidates = min(5, max(2, int(duration / 3)))`. -/
def numCandidates (duration : ℚ) : ℕ :=
  (min 5 (max 2 (pyTrunc (duration / 3)))).toNat

/-- Candidate timestamps of a moment:
`t = start + duration * (k + 1) / (num_candidates + 1)` clamped by
`t = min(t, video.duration - 0.1)` for `k in range(num_candidates)`.
`D` is the total video duration. -/
def candidateTimes (start stop D : ℚ) : List ℚ :=
  let duration := stop - start
  let c := numCandidates duration
  (List.range c).map
    (fun (k : ℕ) => min (start + duration * ((k : ℚ) + 1) / ((c : ℚ) + 1)) (D - 1 / 10))

/-- One iteration of the best-frame loop: the running pair is
`(best_time, best_score)` and the update is guarded by
`if score > best_score`. -/
def selectStep (score : ℚ → ℚ) (b : ℚ × ℚ) (t : ℚ) : ℚ × ℚ :=
  if b.2 < score t then (t, score t) else b

/-- The `for t in candidate_times` loop of `capture_screenshots`. -/
def selectLoop (score : ℚ → ℚ) : List ℚ → ℚ × ℚ → ℚ × ℚ
  | [], b => b
  | t :: rest, b => selectLoop score rest (selectStep score b t)

/-- Best-frame selection: start from
`best_time = candidate_times[0]`, `best_score = -1`, then run the loop;
`score t` embeds `float(np.std(video.get_frame(t)))`. -/
def selectBest (score : ℚ → ℚ) (candidate_times : List ℚ) : ℚ :=
  (selectLoop score candidate_times (candidate_times.headD 0, -1)).1

/-- Screenshot file name `f"key_{i:03d}.jpg"`. -/
def shotName (i : ℕ) : String := "key_" ++ fmt03 i ++ ".jpg"

/-- The enumerated loop body of `capture_screenshots`: for moment `i`
compute the candidates, pick the best time, save the frame under
`shotName i`.  Returns the `(file name, chosen time)` pairs in order. -/
def shotsGo (D : ℚ) (score : ℚ → ℚ) : ℕ → List Moment → List (String × ℚ)
  | _, [] => []
  | i, seg :: rest =>
    let cand := candidateTimes seg.start seg.stop D
    (shotName i, selectBest score cand) :: shotsGo D score (i + 1) rest

/-- `capture_screenshots`: if the screenshot directory exists it is
removed with `shutil.rmtree` and recreated, so the prior contents
`dir0` are discarded wholesale; then one frame per moment is written.
Returns the resulting directory contents together with the
`(file name, chosen time)` reference list aligned with the moments. -/
def capture_screenshots (D : ℚ) (score : ℚ → ℚ) (segments : List Moment)
    (_dir0 : Option (List String)) : List String × List (String × ℚ) :=
  let cleared : List String := []
  let refs := shotsGo D score 0 segments
  (cleared ++ refs.map Prod.fst, refs)

/-! ## Knowledge Distiller (`process_and_summarize`, `transcribe_video.py` lines 61-129)

The two chat-completion calls are embedded as oracles
`String → Except Unit α`: the oracle receives the prompt and returns the
parsed JSON object of the reply, or `Except.error ()` when the HTTP call
or `json.loads` raises. -/

/-- Rendering of a rational time stamp inside the prompt text. -/
def ratStr (q : ℚ) : String := toString q.num ++ "/" ++ toString q.den

/-- One line of the prompt body: `f"[{s.start}-{s.end}] {s.text}"`. -/
def segLine (s : TranscriptSegment) : String :=
  "[" ++ ratStr s.start ++ "-" ++ ratStr s.stop ++ "] " ++ s.text

/-- `text_to_process = "\n".join(...)` of `process_and_summarize`. -/
def text_to_process (segments : List TranscriptSegment) : String :=
  String.intercalate "\n" (segments.map segLine)

/-- One correction rule `f"「{k}」→「{v}」"`. -/
def correctionRule (kv : String × String) : String :=
  "「" ++ kv.1 ++ "」→「" ++ kv.2 ++ "」"

/-- The dynamically assembled glossary block of the distillation prompt;
each sub-line is omitted when its source field is empty (Python
truthiness of `terms.get(...)`). -/
def terms_section (terms : Glossary) : String :=
  (if terms.topic_hint ≠ "" then "- 本影片主題：" ++ terms.topic_hint ++ "\n" else "") ++
  (if terms.corrections ≠ [] then
      "- 名詞校正規則：" ++
        String.intercalate "、" (terms.corrections.map correctionRule) ++ "\n"
    else "") ++
  (if terms.key_terms ≠ [] then
      "- 領域關鍵詞彙：" ++ String.intercalate ", " terms.key_terms ++ "\n"
    else "")

/-- The distillation prompt f-string with the transcript body and the
glossary block spliced in. -/
def distillPrompt (body block : String) : String :=
  "\n你是一個專業的影音逐字稿翻譯與教學重點摘要專家。\n" ++
  "請將以下帶有時間軸的逐字稿內容進行精煉處理。\n\n" ++
  "### 原始逐字稿內容：\n" ++ body ++ "\n\n" ++
  "### 字詞庫與專業術語參考：\n" ++ block ++ "\n\n" ++
  "### 重要任務與要求：\n" ++
  "1. **翻譯與校正**：將所有內容翻譯為「繁體中文」。請嚴格依照上方「名詞校正規則」修正錯誤用詞。\n" ++
  "2. **篩選重點**：原始內容可能包含過多零碎的對話或雜訊。請從中挑選出「真正的關鍵知識點 (Key Knowledge Points)」。\n" ++
  "3. **摘要**：提供一份整體的繁體中文內容摘要。\n" ++
  "4. **輸出格式**：必須為 JSON。\n" ++
  "5. **JSON 結構**：\n" ++
  "\x7b\n  \"summary\": \"這裡填寫整體的繁體中文摘要\",\n  \"key_moments\": [\n    \x7b\n" ++
  "      \"title\": \"此段落的精簡標題（5-15字）\",\n      \"start\": 0.0,\n" ++
  "      \"end\": 10.5,\n      \"text\": \"翻譯並校正後的繁體中文內容\"\n    \x7d,\n    ...\n  ]\n\x7d\n" ++
  "6. **準則**：\n" ++
  "   - 請將鄰近且主題相同的 segment 合併為一個 key_moment，確保總數量適中（建議 5-15 個）。\n" ++
  "   - 每個 key_moment 必須有一個精簡的「title」欄位，用一句話概括該段落的核心知識點。\n\n" ++
  "請只返回 JSON 內容。\n"

/-- `process_and_summarize`: load the glossary, build the prompt, call
the chat endpoint and return the parsed JSON object of the reply
unchanged — the source applies no validation to the parsed reply. -/
def process_and_summarize (chat : String → Except Unit DistilledContent)
    (termsFile : Option (List (String × Glossary)))
    (segments : List TranscriptSegment) (video_name : String) :
    Except Unit DistilledContent :=
  let terms := load_terms termsFile video_name
  chat (distillPrompt (text_to_process segments) (terms_section terms))

/-! ## Filesystem model

Cache artifacts live at deterministic paths derived from the video's
stem or sanitized name (spec section 6).  The distinct path patterns of
the naming contract never collide (they end in distinct fixed suffixes
or live in distinct directories), so paths are embedded as a structured
key type and the filesystem as an association list. -/

/-- The on-disk path patterns used by the pipeline and the web layer. -/
inductive FKey where
  | transcriptionJson (stem : String)
  | quizJson (stem : String)
  | reportHtml (stem : String)
  | quizHtml (sanitizedName : String)
  | audioTemp (stem : String)
  | screenshot (sanitizedName : String) (idx : ℕ)
  | processingMarker (stem : String)
deriving DecidableEq

/-- File contents, structured by artifact kind.  JSON cache artifacts
carry their parsed value: `json.dump` with fixed options is
deterministic, so equality of the carried value models byte identity. -/
inductive FileData where
  | json (d : DistilledContent)
  | quiz (q : Quiz)
  | audio
  | image
  | page
  | marker
deriving DecidableEq

/-- The filesystem: an association list from paths to contents. -/
abbrev FS := List (FKey × FileData)

/-- Content at path `p`, `none` when the file does not exist. -/
def flookup (p : FKey) : FS → Option FileData
  | [] => none
  | kv :: rest => if kv.1 = p then some kv.2 else flookup p rest

/-- Delete path `p` (Python `unlink`; identity when absent). -/
def ferase (p : FKey) : FS → FS
  | [] => []
  | kv :: rest => if kv.1 = p then ferase p rest else kv :: ferase p rest

/-- Create or overwrite path `p` with content `c`. -/
def fwrite (p : FKey) (c : FileData) (fs : FS) : FS :=
  (p, c) :: ferase p fs

/-! ## Orchestrator (`main`, `transcribe_video.py` lines 566-667)

External effects of one video's processing are an `Env` of oracle
outcomes: what each fallible call would return if invoked.  An uncaught
Python exception is `Except.error` carrying the filesystem at the point
of the raise; a caught one is absorbed and the loop continues. -/

/-- A discovered video file: its stem and its full display name. -/
structure VideoFile where
  stem : String
  name : String
deriving DecidableEq

/-- Outcomes of the external calls for one video.  `Except.error ()`
models the call raising an exception. -/
structure Env where
  extract : Except Unit Unit
  transcription : Except Unit (List TranscriptSegment)
  distill : Except Unit DistilledContent
  shots : Except Unit Unit
  quiz : Except Unit Quiz

/-- Which expensive external calls were invoked while processing one
video (invoked means started, whether or not it then failed). -/
structure Calls where
  transcribed : Bool
  distilled : Bool
  quizzed : Bool
deriving DecidableEq

/-- No expensive call invoked. -/
def noCalls : Calls := ⟨false, false, false⟩

/-- Does path `k` lie inside the screenshot directory of the video with
sanitized name `n`? -/
def isShot (n : String) : FKey → Bool
  | .screenshot m _ => m = n
  | _ => false

/-- `shutil.rmtree` of the screenshot directory: drop every file inside
it. -/
def clearShots (n : String) : FS → FS
  | [] => []
  | kv :: rest => if isShot n kv.1 then clearShots n rest else kv :: clearShots n rest

/-- The frame writes of `capture_screenshots`: one image per key
moment index. -/
def writeShots (n : String) (count : ℕ) (fs : FS) : FS :=
  (List.range count).foldl (fun acc i => fwrite (.screenshot n i) .image acc) fs

/-- The second try block of the per-video loop (lines 625-664):
screenshot capture, report rendering, quiz generation (cache-guarded)
and quiz rendering.  Any exception inside it is caught at line 661, so
this stage always returns a filesystem; the flag records whether
`generate_quiz` was invoked. -/
def stage2 (env : Env) (v : VideoFile) (d : DistilledContent) (fs : FS) : FS × Bool :=
  let sname := sanitize v.name
  let fs0 := clearShots sname fs
  match env.shots with
  | .error _ => (fs0, false)
  | .ok _ =>
    let fs1 := writeShots sname d.key_moments.length fs0
    let fs2 := fwrite (.reportHtml v.stem) .page fs1
    match flookup (.quizJson v.stem) fs2 with
    | some (.quiz _) => (fwrite (.quizHtml sname) .page fs2, false)
    | some _ => (fs2, false)
    | none =>
      match env.quiz with
      | .error _ => (fs2, false)
      | .ok q =>
        let fs3 := fwrite (.quizJson v.stem) (.quiz q) fs2
        (fwrite (.quizHtml sname) .page fs3, true)

/-- The body of `main`'s per-video loop (lines 588-664).

Stage 1: if `<stem>_transcription.json` exists it is loaded (a corrupt
cache raises outside any try block, aborting the batch); otherwise
`extract_audio` runs **outside** the try block at lines 604-623, the
try covers transcription through distillation, the except at line 616
absorbs the failure and skips to the next video, and the finally at
line 621 deletes the temp audio file.  Stage 2 then runs under its own
try.  `Except.error` is an uncaught exception aborting the batch. -/
def processVideo (env : Env) (v : VideoFile) (fs : FS) : Except FS (FS × Calls) :=
  match flookup (.transcriptionJson v.stem) fs with
  | some (.json d) =>
    let r := stage2 env v d fs
    .ok (r.1, ⟨false, false, r.2⟩)
  | some _ => .error fs
  | none =>
    match env.extract with
    | .error _ => .error fs
    | .ok _ =>
      let fsA := fwrite (.audioTemp v.stem) .audio fs
      match env.transcription with
      | .error _ => .ok (ferase (.audioTemp v.stem) fsA, ⟨true, false, false⟩)
      | .ok _segs =>
        match env.distill with
        | .error _ => .ok (ferase (.audioTemp v.stem) fsA, ⟨true, true, false⟩)
        | .ok d =>
          let fsB := fwrite (.transcriptionJson v.stem) (.json d) fsA
          let fsC := ferase (.audioTemp v.stem) fsB
          let r := stage2 env v d fsC
          .ok (r.1, ⟨true, true, r.2⟩)

/-- The batch loop of `main`: videos are processed in order; an
uncaught exception aborts the whole batch. -/
def runBatch (envOf : VideoFile → Env) (videos : List VideoFile) (fs : FS) :
    Except FS FS :=
  match videos with
  | [] => .ok fs
  | v :: rest =>
    match processVideo (envOf v) v fs with
    | .error fsE => .error fsE
    | .ok (fs1, _) => runBatch envOf rest fs1

/-! ## Background job marker (`run_script`, `app.py` lines 290-306) -/

/-- The filesystem in which the subprocess of `run_script` runs: the
`<stem>.processing` marker has been written first. -/
def run_script_jobFS (stem : String) (fs : FS) : FS :=
  fwrite (.processingMarker stem) .marker fs

/-- `run_script`: write the marker, run the job, and in the `finally`
block unlink the marker if it exists — on the success and on the
exception path alike.  The job's `Except.error` carries the filesystem
at its raise point. -/
def run_script (stem : String) (job : FS → Except FS FS) (fs : FS) : FS :=
  match job (run_script_jobFS stem fs) with
  | .ok fs2 => ferase (.processingMarker stem) fs2
  | .error fs2 => ferase (.processingMarker stem) fs2

/-! ## Filesystem lemma kit -/

lemma flookup_ferase_self (p : FKey) (fs : FS) :
    flookup p (ferase p fs) = none := by
  induction fs with
  | nil => rfl
  | cons kv rest ih =>
    by_cases hk : kv.1 = p
    · simpa [ferase, hk] using ih
    · simpa [ferase, flookup, hk] using ih

lemma flookup_ferase_ne {p q : FKey} (h : p ≠ q) (fs : FS) :
    flookup p (ferase q fs) = flookup p fs := by
  induction fs with
  | nil => rfl
  | cons kv rest ih =>
    by_cases hk : kv.1 = q
    · have hne : ¬ kv.1 = p := by rw [hk]; exact fun hqp => h hqp.symm
      rw [show ferase q (kv :: rest) = ferase q rest by simp [ferase, hk]]
      rw [ih]
      simp [flookup, hne]
    · rw [show ferase q (kv :: rest) = kv :: ferase q rest by simp [ferase, hk]]
      by_cases hp : kv.1 = p <;> simp [flookup, hp, ih]

lemma flookup_fwrite_self (p : FKey) (c : FileData) (fs : FS) :
    flookup p (fwrite p c fs) = some c := by
  simp [fwrite, flookup]

lemma flookup_fwrite_ne {p q : FKey} (h : p ≠ q) (c : FileData) (fs : FS) :
    flookup p (fwrite q c fs) = flookup p fs := by
  have hne : ¬ q = p := fun hqp => h hqp.symm
  simp [fwrite, flookup, hne, flookup_ferase_ne h]

lemma flookup_clearShots {p : FKey} {n : String} (h : isShot n p = false) (fs : FS) :
    flookup p (clearShots n fs) = flookup p fs := by
  induction fs with
  | nil => rfl
  | cons kv rest ih =>
    by_cases hk : isShot n kv.1
    · have hne : ¬ kv.1 = p := fun hp => by rw [hp] at hk; rw [hk] at h; cases h
      rw [show clearShots n (kv :: rest) = clearShots n rest by simp [clearShots, hk]]
      rw [ih]
      simp [flookup, hne]
    · rw [show clearShots n (kv :: rest) = kv :: clearShots n rest by
        simp [clearShots, hk]]
      by_cases hp : kv.1 = p <;> simp [flookup, hp, ih]

lemma flookup_foldShots {p : FKey} {n : String} (h : ∀ i, p ≠ FKey.screenshot n i)
    (l : List ℕ) (fs : FS) :
    flookup p (l.foldl (fun acc i => fwrite (FKey.screenshot n i) FileData.image acc) fs)
      = flookup p fs := by
  induction l generalizing fs with
  | nil => rfl
  | cons i t ih =>
    simp only [List.foldl]
    rw [ih, flookup_fwrite_ne (h i)]

lemma flookup_writeShots {p : FKey} {n : String} (h : ∀ i, p ≠ FKey.screenshot n i)
    (count : ℕ) (fs : FS) :
    flookup p (writeShots n count fs) = flookup p fs :=
  flookup_foldShots h (List.range count) fs

/-- A path that is neither a quiz artifact, the report, the quiz page
nor a screenshot of the video is untouched by the second stage. -/
lemma stage2_flookup {p : FKey} (env : Env) (v : VideoFile) (d : DistilledContent)
    (fs : FS)
    (hs : isShot (sanitize v.name) p = false)
    (hr : p ≠ FKey.reportHtml v.stem)
    (hq : p ≠ FKey.quizJson v.stem)
    (hh : p ≠ FKey.quizHtml (sanitize v.name)) :
    flookup p (stage2 env v d fs).1 = flookup p fs := by
  have hsc : ∀ i, p ≠ FKey.screenshot (sanitize v.name) i := by
    intro i hp
    rw [hp] at hs
    simp [isShot] at hs
  unfold stage2
  cases env.shots with
  | error e => exact flookup_clearShots hs fs
  | ok u =>
    dsimp only
    cases hlq : flookup (FKey.quizJson v.stem)
        (fwrite (FKey.reportHtml v.stem) FileData.page
          (writeShots (sanitize v.name) d.key_moments.length
            (clearShots (sanitize v.name) fs))) with
    | none =>
      cases env.quiz with
      | error e =>
        dsimp only
        rw [flookup_fwrite_ne hr, flookup_writeShots hsc, flookup_clearShots hs]
      | ok q =>
        dsimp only
        rw [flookup_fwrite_ne hh, flookup_fwrite_ne hq, flookup_fwrite_ne hr,
          flookup_writeShots hsc, flookup_clearShots hs]
    | some fd =>
      cases fd <;> dsimp only <;>
        first
        | rw [flookup_fwrite_ne hh, flookup_fwrite_ne hr,
            flookup_writeShots hsc, flookup_clearShots hs]
        | rw [flookup_fwrite_ne hr, flookup_writeShots hsc, flookup_clearShots hs]

/-! ## Selection loop characterization -/


/-- Invariant of the best-frame loop: either no candidate strictly beats
the incoming best score and the state is unchanged, or the final state
is the first candidate attaining the maximal score among those beating
the incoming score. -/
lemma selectLoop_spec (s : ℚ → ℚ) (l : List ℚ) (bt bs : ℚ) :
    (selectLoop s l (bt, bs) = (bt, bs) ∧ ∀ t ∈ l, s t ≤ bs) ∨
    (∃ i : Fin l.length,
      selectLoop s l (bt, bs) = (l.get i, s (l.get i)) ∧
      bs < s (l.get i) ∧
      (∀ t ∈ l, s t ≤ s (l.get i)) ∧
      (∀ j : Fin l.length, (j : ℕ) < (i : ℕ) → s (l.get j) < s (l.get i))) := by
  induction l generalizing bt bs with
  | nil => exact Or.inl ⟨rfl, by simp⟩
  | cons t rest ih =>
    by_cases hts : bs < s t
    · have hstep : selectLoop s (t :: rest) (bt, bs) = selectLoop s rest (t, s t) := by
        simp [selectLoop, selectStep, hts]
      rcases ih t (s t) with ⟨heq, hall⟩ | ⟨i, heq, hlt, hall, hstrict⟩
      · refine Or.inr ⟨⟨0, Nat.succ_pos _⟩, ?_, ?_, ?_, ?_⟩
        · rw [hstep, heq]; rfl
        · exact hts
        · intro u hu
          rcases List.mem_cons.mp hu with hu | hu
          · rw [hu]; exact le_refl _
          · exact hall u hu
        · rintro ⟨j, hj⟩ hlt'
          exact absurd hlt' (Nat.not_lt_zero j)
      · refine Or.inr ⟨⟨(i : ℕ) + 1, Nat.succ_lt_succ i.isLt⟩, ?_, ?_, ?_, ?_⟩
        · rw [hstep, heq]; rfl
        · exact lt_trans hts hlt
        · intro u hu
          rcases List.mem_cons.mp hu with hu | hu
          · rw [hu]; exact le_of_lt hlt
          · exact hall u hu
        · rintro ⟨j, hj⟩ hlt'
          cases j with
          | zero => exact hlt
          | succ jj =>
            exact hstrict ⟨jj, Nat.lt_of_succ_lt_succ hj⟩ (Nat.lt_of_succ_lt_succ hlt')
    · have hle : s t ≤ bs := not_lt.mp hts
      have hstep : selectLoop s (t :: rest) (bt, bs) = selectLoop s rest (bt, bs) := by
        simp [selectLoop, selectStep, hts]
      rcases ih bt bs with ⟨heq, hall⟩ | ⟨i, heq, hlt, hall, hstrict⟩
      · refine Or.inl ⟨by rw [hstep, heq], ?_⟩
        intro u hu
        rcases List.mem_cons.mp hu with hu | hu
        · rw [hu]; exact hle
        · exact hall u hu
      · refine Or.inr ⟨⟨(i : ℕ) + 1, Nat.succ_lt_succ i.isLt⟩, ?_, ?_, ?_, ?_⟩
        · rw [hstep, heq]; rfl
        · exact hlt
        · intro u hu
          rcases List.mem_cons.mp hu with hu | hu
          · rw [hu]; exact le_trans hle (le_of_lt hlt)
          · exact hall u hu
        · rintro ⟨j, hj⟩ hlt'
          cases j with
          | zero => exact lt_of_le_of_lt hle hlt
          | succ jj =>
            exact hstrict ⟨jj, Nat.lt_of_succ_lt_succ hj⟩ (Nat.lt_of_succ_lt_succ hlt')

/-! ## Screenshot loop lemmas -/

lemma shotsGo_length (D : ℚ) (score : ℚ → ℚ) (i : ℕ) (l : List Moment) :
    (shotsGo D score i l).length = l.length := by
  induction l generalizing i with
  | nil => rfl
  | cons m rest ih => simp [shotsGo, ih]

lemma shotsGo_map_fst (D : ℚ) (score : ℚ → ℚ) (l : List Moment) (i : ℕ) :
    (shotsGo D score i l).map Prod.fst
      = (List.range l.length).map (fun k => shotName (i + k)) := by
  induction l generalizing i with
  | nil => rfl
  | cons m rest ih =>
    rw [show (List.range (m :: rest).length)
        = 0 :: (List.range rest.length).map Nat.succ from
      List.range_succ_eq_map rest.length]
    simp only [shotsGo, List.map_cons, List.map_map, ih (i + 1)]
    congr 1
    congr 1
    funext k
    simp only [Function.comp]
    congr 1
    omega

lemma shotsGo_get (D : ℚ) (score : ℚ → ℚ) (l : List Moment) (i k : ℕ)
    (hk : k < (shotsGo D score i l).length) (hk' : k < l.length) :
    (shotsGo D score i l).get ⟨k, hk⟩
      = (shotName (i + k),
         selectBest score
           (candidateTimes (l.get ⟨k, hk'⟩).start (l.get ⟨k, hk'⟩).stop D)) := by
  induction l generalizing i k with
  | nil => exact absurd hk' (Nat.not_lt_zero k)
  | cons m rest ih =>
    cases k with
    | zero => simp [shotsGo]
    | succ kk =>
      have hrec := ih (i + 1) kk
        (by simpa [shotsGo] using Nat.lt_of_succ_lt_succ hk)
        (Nat.lt_of_succ_lt_succ hk')
      rw [show (shotsGo D score i (m :: rest)).get ⟨kk + 1, hk⟩
          = (shotsGo D score (i + 1) rest).get
              ⟨kk, by simpa [shotsGo] using Nat.lt_of_succ_lt_succ hk⟩ from rfl]
      rw [hrec]
      rw [show i + 1 + kk = i + (kk + 1) by omega]
      rfl

lemma shotsGo_get_append (D : ℚ) (score : ℚ → ℚ) (pre post : List Moment)
    (m : Moment) (i : ℕ) :
    (shotsGo D score i (pre ++ m :: post)).get? pre.length
      = some (shotName (i + pre.length),
          selectBest score (candidateTimes m.start m.stop D)) := by
  induction pre generalizing i with
  | nil => simp [shotsGo]
  | cons p t ih =>
    rw [show (p :: t ++ m :: post) = p :: (t ++ m :: post) from rfl]
    rw [show (p :: t).length = t.length + 1 from rfl]
    rw [show (shotsGo D score i (p :: (t ++ m :: post))).get? (t.length + 1)
        = (shotsGo D score (i + 1) (t ++ m :: post)).get? t.length from rfl]
    rw [ih (i + 1)]
    rw [show i + 1 + t.length = i + (t.length + 1) by omega]

/-! ## Glossary matcher lemmas -/

lemma findMatch_first {video_name : String} (pre suf : List (String × Glossary))
    (k : String) (g : Glossary)
    (hpre : ∀ p ∈ pre, p.1 = "default" ∨ strContains video_name p.1 = false)
    (hk : k ≠ "default") (hm : strContains video_name k = true) :
    findMatch video_name (pre ++ (k, g) :: suf) = some g := by
  induction pre with
  | nil => simp [findMatch, hk, hm]
  | cons p t ih =>
    obtain ⟨k', g'⟩ := p
    have hrest : ∀ p ∈ t, p.1 = "default" ∨ strContains video_name p.1 = false :=
      fun p hp => hpre p (List.mem_cons_of_mem _ hp)
    rcases hpre (k', g') (List.mem_cons_self _ _) with hd | hnm
    · simp only at hd
      simp [findMatch, hd, ih hrest]
    · simp only at hnm
      by_cases hdd : k' = "default"
      · simp [findMatch, hdd, ih hrest]
      · simp [findMatch, hdd, hnm, ih hrest]

lemma findMatch_none {video_name : String} (table : List (String × Glossary))
    (h : ∀ p ∈ table, p.1 = "default" ∨ strContains video_name p.1 = false) :
    findMatch video_name table = none := by
  induction table with
  | nil => rfl
  | cons p t ih =>
    obtain ⟨k', g'⟩ := p
    have hrest : ∀ p ∈ t, p.1 = "default" ∨ strContains video_name p.1 = false :=
      fun p hp => h p (List.mem_cons_of_mem _ hp)
    rcases h (k', g') (List.mem_cons_self _ _) with hd | hnm
    · simp only at hd
      simp [findMatch, hd, ih hrest]
    · simp only at hnm
      by_cases hdd : k' = "default"
      · simp [findMatch, hdd, ih hrest]
      · simp [findMatch, hdd, hnm, ih hrest]

/-! ## Orchestrator helper lemmas -/

/-- When the quiz cache artifact is present, the second stage never
invokes quiz generation and leaves the artifact in place. -/
lemma stage2_quiz_cached (env : Env) (v : VideoFile) (d : DistilledContent)
    (fs : FS) (q : Quiz)
    (hq : flookup (FKey.quizJson v.stem) fs = some (FileData.quiz q)) :
    (stage2 env v d fs).2 = false ∧
    flookup (FKey.quizJson v.stem) (stage2 env v d fs).1
      = some (FileData.quiz q) := by
  have hqs : isShot (sanitize v.name) (FKey.quizJson v.stem) = false := rfl
  have hsc : ∀ i, FKey.quizJson v.stem ≠ FKey.screenshot (sanitize v.name) i :=
    fun i h => FKey.noConfusion h
  have hr : FKey.quizJson v.stem ≠ FKey.reportHtml v.stem :=
    fun h => FKey.noConfusion h
  have hh : FKey.quizJson v.stem ≠ FKey.quizHtml (sanitize v.name) :=
    fun h => FKey.noConfusion h
  unfold stage2
  cases hsh : env.shots with
  | error e =>
    refine ⟨rfl, ?_⟩
    rw [flookup_clearShots hqs]
    exact hq
  | ok u =>
    dsimp only
    have hlq : flookup (FKey.quizJson v.stem)
        (fwrite (FKey.reportHtml v.stem) FileData.page
          (writeShots (sanitize v.name) d.key_moments.length
            (clearShots (sanitize v.name) fs))) = some (FileData.quiz q) := by
      rw [flookup_fwrite_ne hr, flookup_writeShots hsc, flookup_clearShots hqs]
      exact hq
    rw [hlq]
    dsimp only
    refine ⟨rfl, ?_⟩
    rw [flookup_fwrite_ne hh]
    exact hlq

/-- Cache hit on `<stem>_transcription.json`: the per-video body jumps
straight to the second stage with the loaded content, invoking neither
transcription nor distillation. -/
lemma processVideo_cache_hit (env : Env) (v : VideoFile) (fs : FS)
    (d : DistilledContent)
    (hj : flookup (FKey.transcriptionJson v.stem) fs = some (FileData.json d)) :
    processVideo env v fs
      = Except.ok ((stage2 env v d fs).1, ⟨false, false, (stage2 env v d fs).2⟩) := by
  unfold processVideo
  rw [hj]

/-- The transcription cache artifact survives the second stage. -/
lemma stage2_keeps_transcription (env : Env) (v : VideoFile) (d : DistilledContent)
    (fs : FS) :
    flookup (FKey.transcriptionJson v.stem) (stage2 env v d fs).1
      = flookup (FKey.transcriptionJson v.stem) fs :=
  stage2_flookup env v d fs rfl (fun h => FKey.noConfusion h)
    (fun h => FKey.noConfusion h) (fun h => FKey.noConfusion h)

/-- The temp audio path is never written by the second stage. -/
lemma stage2_keeps_audio (env : Env) (v : VideoFile) (d : DistilledContent)
    (fs : FS) (stem : String) :
    flookup (FKey.audioTemp stem) (stage2 env v d fs).1
      = flookup (FKey.audioTemp stem) fs :=
  stage2_flookup env v d fs rfl (fun h => FKey.noConfusion h)
    (fun h => FKey.noConfusion h) (fun h => FKey.noConfusion h)

/-- Cache miss with successful extraction, transcription and
distillation: the per-video body writes the transcription cache, removes
the temp audio and enters the second stage. -/
lemma processVideo_fresh_eq (env : Env) (v : VideoFile) (fs : FS)
    (segs : List TranscriptSegment) (d : DistilledContent)
    (hj0 : flookup (FKey.transcriptionJson v.stem) fs = none)
    (hx : env.extract = Except.ok ()) (ht : env.transcription = Except.ok segs)
    (hd : env.distill = Except.ok d) :
    processVideo env v fs = Except.ok
      ((stage2 env v d (ferase (FKey.audioTemp v.stem)
          (fwrite (FKey.transcriptionJson v.stem) (FileData.json d)
            (fwrite (FKey.audioTemp v.stem) FileData.audio fs)))).1,
       ⟨true, true,
        (stage2 env v d (ferase (FKey.audioTemp v.stem)
          (fwrite (FKey.transcriptionJson v.stem) (FileData.json d)
            (fwrite (FKey.audioTemp v.stem) FileData.audio fs)))).2⟩) := by
  unfold processVideo
  rw [hj0]
  dsimp only
  rw [hx]
  dsimp only
  rw [ht]
  dsimp only
  rw [hd]

/-- Second stage on a filesystem without a quiz cache, with screenshots
and quiz generation succeeding: full rebuild of the view artifacts. -/
lemma stage2_fresh_eq (env : Env) (v : VideoFile) (d : DistilledContent)
    (fs : FS) (q : Quiz)
    (hs : env.shots = Except.ok ()) (hz : env.quiz = Except.ok q)
    (hq0 : flookup (FKey.quizJson v.stem) fs = none) :
    stage2 env v d fs =
      (fwrite (FKey.quizHtml (sanitize v.name)) FileData.page
        (fwrite (FKey.quizJson v.stem) (FileData.quiz q)
          (fwrite (FKey.reportHtml v.stem) FileData.page
            (writeShots (sanitize v.name) d.key_moments.length
              (clearShots (sanitize v.name) fs)))), true) := by
  have hqs : isShot (sanitize v.name) (FKey.quizJson v.stem) = false := rfl
  have hsc : ∀ i, FKey.quizJson v.stem ≠ FKey.screenshot (sanitize v.name) i :=
    fun i h => FKey.noConfusion h
  have hr : FKey.quizJson v.stem ≠ FKey.reportHtml v.stem :=
    fun h => FKey.noConfusion h
  unfold stage2
  rw [hs]
  dsimp only
  have hlq : flookup (FKey.quizJson v.stem)
      (fwrite (FKey.reportHtml v.stem) FileData.page
        (writeShots (sanitize v.name) d.key_moments.length
          (clearShots (sanitize v.name) fs))) = none := by
    rw [flookup_fwrite_ne hr, flookup_writeShots hsc, flookup_clearShots hqs]
    exact hq0
  rw [hlq]
  dsimp only
  rw [hz]

/-- A fully successful first run on a filesystem without caches leaves
both cache artifacts on disk and no temp audio file. -/
lemma processVideo_fresh_success (env : Env) (v : VideoFile) (fs : FS)
    (segs : List TranscriptSegment) (d : DistilledContent) (q : Quiz)
    (hj0 : flookup (FKey.transcriptionJson v.stem) fs = none)
    (hq0 : flookup (FKey.quizJson v.stem) fs = none)
    (hx : env.extract = Except.ok ()) (ht : env.transcription = Except.ok segs)
    (hd : env.distill = Except.ok d) (hs : env.shots = Except.ok ())
    (hz : env.quiz = Except.ok q) :
    ∃ fs1, processVideo env v fs = Except.ok (fs1, ⟨true, true, true⟩) ∧
      flookup (FKey.transcriptionJson v.stem) fs1 = some (FileData.json d) ∧
      flookup (FKey.quizJson v.stem) fs1 = some (FileData.quiz q) ∧
      flookup (FKey.audioTemp v.stem) fs1 = none := by
  have htj_a : FKey.transcriptionJson v.stem ≠ FKey.audioTemp v.stem :=
    fun h => FKey.noConfusion h
  have htj_r : FKey.transcriptionJson v.stem ≠ FKey.reportHtml v.stem :=
    fun h => FKey.noConfusion h
  have htj_q : FKey.transcriptionJson v.stem ≠ FKey.quizJson v.stem :=
    fun h => FKey.noConfusion h
  have htj_h : FKey.transcriptionJson v.stem ≠ FKey.quizHtml (sanitize v.name) :=
    fun h => FKey.noConfusion h
  have htj_s : ∀ i, FKey.transcriptionJson v.stem ≠ FKey.screenshot (sanitize v.name) i :=
    fun i h => FKey.noConfusion h
  have hqj_a : FKey.quizJson v.stem ≠ FKey.audioTemp v.stem :=
    fun h => FKey.noConfusion h
  have hqj_t : FKey.quizJson v.stem ≠ FKey.transcriptionJson v.stem :=
    fun h => FKey.noConfusion h
  have hqj_h : FKey.quizJson v.stem ≠ FKey.quizHtml (sanitize v.name) :=
    fun h => FKey.noConfusion h
  have hau_r : FKey.audioTemp v.stem ≠ FKey.reportHtml v.stem :=
    fun h => FKey.noConfusion h
  have hau_q : FKey.audioTemp v.stem ≠ FKey.quizJson v.stem :=
    fun h => FKey.noConfusion h
  have hau_h : FKey.audioTemp v.stem ≠ FKey.quizHtml (sanitize v.name) :=
    fun h => FKey.noConfusion h
  have hau_s : ∀ i, FKey.audioTemp v.stem ≠ FKey.screenshot (sanitize v.name) i :=
    fun i h => FKey.noConfusion h
  have htj_sh : isShot (sanitize v.name) (FKey.transcriptionJson v.stem) = false := rfl
  have hau_sh : isShot (sanitize v.name) (FKey.audioTemp v.stem) = false := rfl
  have hqC : flookup (FKey.quizJson v.stem)
      (ferase (FKey.audioTemp v.stem)
        (fwrite (FKey.transcriptionJson v.stem) (FileData.json d)
          (fwrite (FKey.audioTemp v.stem) FileData.audio fs))) = none := by
    rw [flookup_ferase_ne hqj_a, flookup_fwrite_ne hqj_t, flookup_fwrite_ne hqj_a]
    exact hq0
  have hrun := processVideo_fresh_eq env v fs segs d hj0 hx ht hd
  rw [stage2_fresh_eq env v d _ q hs hz hqC] at hrun
  refine ⟨_, hrun, ?_, ?_, ?_⟩
  · rw [flookup_fwrite_ne htj_h, flookup_fwrite_ne htj_q, flookup_fwrite_ne htj_r,
      flookup_writeShots htj_s, flookup_clearShots htj_sh, flookup_ferase_ne htj_a,
      flookup_fwrite_self]
  · rw [flookup_fwrite_ne hqj_h, flookup_fwrite_self]
  · rw [flookup_fwrite_ne hau_h, flookup_fwrite_ne hau_q, flookup_fwrite_ne hau_r,
      flookup_writeShots hau_s, flookup_clearShots hau_sh, flookup_ferase_self]

/-- A run with both cache artifacts present invokes none of the
expensive calls and preserves both artifacts. -/
lemma processVideo_second_run (env : Env) (v : VideoFile) (fs : FS)
    (d : DistilledContent) (q : Quiz)
    (hj : flookup (FKey.transcriptionJson v.stem) fs = some (FileData.json d))
    (hq : flookup (FKey.quizJson v.stem) fs = some (FileData.quiz q)) :
    ∃ fs2, processVideo env v fs = Except.ok (fs2, noCalls) ∧
      flookup (FKey.transcriptionJson v.stem) fs2 = some (FileData.json d) ∧
      flookup (FKey.quizJson v.stem) fs2 = some (FileData.quiz q) := by
  obtain ⟨hz2, hq2⟩ := stage2_quiz_cached env v d fs q hq
  refine ⟨(stage2 env v d fs).1, ?_, ?_, hq2⟩
  · rw [processVideo_cache_hit env v fs d hj, hz2]
    rfl
  · rw [stage2_keeps_transcription]
    exact hj

/-! ## Claim theorems -/

/-- C3: candidate-timestamp generation is the pure deterministic
function of the code: for a moment with `start ≤ stop` in a video of
duration `D`, the candidate count equals `min 5 (max 2 ⌊duration/3⌋)`
(hence duration 0 gives exactly 2, duration 9 exactly 3, duration ≥ 18
exactly 5) and the k-th candidate equals
`min (start + duration*(k+1)/(c+1)) (D - 0.1)`. -/
theorem C3_candidate_generation (start stop D : ℚ) (h : start ≤ stop) :
    ((numCandidates (stop - start) : ℤ) = min 5 (max 2 ⌊(stop - start) / 3⌋)) ∧
    (candidateTimes start stop D).length = numCandidates (stop - start) ∧
    (∀ k : Fin (candidateTimes start stop D).length,
        (candidateTimes start stop D).get k
          = min (start + (stop - start) * (((k : ℕ) : ℚ) + 1)
                  / ((numCandidates (stop - start) : ℚ) + 1)) (D - 1 / 10)) ∧
    numCandidates 0 = 2 ∧ numCandidates 9 = 3 ∧
    (∀ dur : ℚ, 18 ≤ dur → numCandidates dur = 5) := by
  have hd : (0:ℚ) ≤ stop - start := sub_nonneg.mpr h
  have hdiv : (0:ℚ) ≤ (stop - start) / 3 := div_nonneg hd (by norm_num)
  have htr : pyTrunc ((stop - start) / 3) = ⌊(stop - start) / 3⌋ := by
    unfold pyTrunc
    rw [if_pos hdiv]
  have hct : candidateTimes start stop D
      = (List.range (numCandidates (stop - start))).map
          (fun (k : ℕ) => min (start + (stop - start) * ((k : ℚ) + 1)
              / ((numCandidates (stop - start) : ℚ) + 1)) (D - 1 / 10)) := rfl
  refine ⟨?_, ?_, ?_, ?_, ?_, ?_⟩
  · unfold numCandidates
    rw [htr]
    omega
  · rw [hct]
    simp
  · intro k
    obtain ⟨kv, hk⟩ := k
    rw [List.get_eq_getElem]
    simp only [hct] at hk ⊢
    rw [List.getElem_map, List.getElem_range]
  · norm_num [numCandidates, pyTrunc]
    decide
  · norm_num [numCandidates, pyTrunc]
    decide
  · intro dur hdur
    have h0 : (0:ℚ) ≤ dur / 3 := div_nonneg (by linarith) (by norm_num)
    have h6 : (6:ℤ) ≤ ⌊dur / 3⌋ := by
      rw [Int.le_floor]
      push_cast
      linarith
    unfold numCandidates pyTrunc
    rw [if_pos h0]
    omega

/-- C3 witness: the theorem applied at the concrete moment `[0, 9]` in
a 100-second video. -/
theorem C3_candidate_generation_witness :
    ((numCandidates ((9:ℚ) - 0) : ℤ) = min 5 (max 2 ⌊((9:ℚ) - 0) / 3⌋)) ∧
    (candidateTimes 0 9 100).length = numCandidates ((9:ℚ) - 0) ∧
    (∀ k : Fin (candidateTimes 0 9 100).length,
        (candidateTimes 0 9 100).get k
          = min ((0:ℚ) + ((9:ℚ) - 0) * (((k : ℕ) : ℚ) + 1)
                  / ((numCandidates ((9:ℚ) - 0) : ℚ) + 1)) ((100:ℚ) - 1 / 10)) ∧
    numCandidates 0 = 2 ∧ numCandidates 9 = 3 ∧
    (∀ dur : ℚ, 18 ≤ dur → numCandidates dur = 5) :=
  C3_candidate_generation 0 9 100 (by norm_num)

/-- C4: among a moment's candidate timestamps (all frame scores are
standard deviations, hence nonnegative), the selector returns the
candidate with the maximum score, and on numerically equal scores the
first-encountered (earliest) candidate. -/
theorem C4_max_score_earliest_tie (score : ℚ → ℚ) (cand : List ℚ)
    (hne : cand ≠ []) (hnn : ∀ t ∈ cand, 0 ≤ score t) :
    ∃ i : Fin cand.length,
      selectBest score cand = cand.get i ∧
      (∀ t ∈ cand, score t ≤ score (cand.get i)) ∧
      (∀ j : Fin cand.length, (j : ℕ) < (i : ℕ) →
        score (cand.get j) < score (cand.get i)) := by
  rcases selectLoop_spec score cand (cand.headD 0) (-1) with
    ⟨heq, hall⟩ | ⟨i, heq, hgt, hall, hstrict⟩
  · rcases cand with _ | ⟨a, rest⟩
    · exact absurd rfl hne
    · have h1 : score a ≤ -1 := hall a (List.mem_cons_self _ _)
      have h2 : (0:ℚ) ≤ score a := hnn a (List.mem_cons_self _ _)
      linarith
  · refine ⟨i, ?_, hall, hstrict⟩
    unfold selectBest
    rw [heq]

/-- C4 witness: two candidates with equal scores; the selector must
return the earlier one, witnessed through the theorem. -/
theorem C4_max_score_earliest_tie_witness :
    ∃ i : Fin ([3, 6] : List ℚ).length,
      selectBest (fun _ => 2) [3, 6] = ([3, 6] : List ℚ).get i ∧
      (∀ t ∈ ([3, 6] : List ℚ),
        (fun _ => (2:ℚ)) t ≤ (fun _ => (2:ℚ)) (([3, 6] : List ℚ).get i)) ∧
      (∀ j : Fin ([3, 6] : List ℚ).length, (j : ℕ) < (i : ℕ) →
        (fun _ => (2:ℚ)) (([3, 6] : List ℚ).get j)
          < (fun _ => (2:ℚ)) (([3, 6] : List ℚ).get i)) :=
  C4_max_score_earliest_tie (fun _ => 2) [3, 6] (by simp)
    (fun t _ => by norm_num)

/-- C5: the glossary matcher returns the value of the first key in
insertion order, excluding `"default"`, that occurs as a literal
substring of the video name; when no key matches it returns the
`"default"` entry; and it returns the empty glossary when the file is
absent or when nothing matches and no `"default"` entry exists. -/
theorem C5_glossary_first_match (video_name : String) :
    load_terms none video_name = emptyGlossary ∧
    (∀ (pre suf : List (String × Glossary)) (k : String) (g : Glossary),
      (∀ p ∈ pre, p.1 = "default" ∨ strContains video_name p.1 = false) →
      k ≠ "default" → strContains video_name k = true →
      load_terms (some (pre ++ (k, g) :: suf)) video_name = g) ∧
    (∀ table : List (String × Glossary),
      (∀ p ∈ table, p.1 = "default" ∨ strContains video_name p.1 = false) →
      load_terms (some table) video_name
        = (List.lookup "default" table).getD emptyGlossary) := by
  refine ⟨rfl, ?_, ?_⟩
  · intro pre suf k g hpre hk hm
    unfold load_terms
    dsimp only
    rw [findMatch_first pre suf k g hpre hk hm]
  · intro table htable
    unfold load_terms
    dsimp only
    rw [findMatch_none table htable]

/-- C5 witness: with keys `safety`, `intro`, `default` in that insertion
order and video name `intro_safety_lecture.mp4`, the first declared
matching key (`safety`) wins even though `intro` also matches. -/
theorem C5_glossary_first_match_witness :
    load_terms
        (some [("safety", ⟨[("a", "b")], ["x"], "s"⟩),
               ("intro", ⟨[], [], "i"⟩),
               ("default", ⟨[], [], "d"⟩)])
        "intro_safety_lecture.mp4"
      = ⟨[("a", "b")], ["x"], "s"⟩ :=
  (C5_glossary_first_match "intro_safety_lecture.mp4").2.1
    [] [("intro", ⟨[], [], "i"⟩), ("default", ⟨[], [], "d"⟩)]
    "safety" ⟨[("a", "b")], ["x"], "s"⟩
    (fun p hp => absurd hp (List.not_mem_nil p)) (by decide) (by decide)

/-- C6: every run of the frame-selection stage rebuilds the screenshot
directory from scratch — the resulting directory contents are exactly
`key_000.jpg … key_{n-1}.jpg` independently of whatever was there
before — and the returned file-name sequence is aligned 1:1 with the
key-moment sequence by index. -/
theorem C6_full_rebuild_alignment (D : ℚ) (score : ℚ → ℚ)
    (segments : List Moment) (dir0 dir0' : Option (List String)) :
    (capture_screenshots D score segments dir0).1
        = (List.range segments.length).map shotName ∧
    capture_screenshots D score segments dir0
        = capture_screenshots D score segments dir0' ∧
    ((capture_screenshots D score segments dir0).2).length = segments.length ∧
    ∀ k : Fin ((capture_screenshots D score segments dir0).2).length,
      (((capture_screenshots D score segments dir0).2).get k).1
        = shotName (k : ℕ) := by
  refine ⟨?_, rfl, ?_, ?_⟩
  · show (shotsGo D score 0 segments).map Prod.fst = _
    rw [shotsGo_map_fst]
    simp
  · exact shotsGo_length D score 0 segments
  · intro k
    obtain ⟨kv, hk⟩ := k
    have hk2 : kv < segments.length := by
      rw [← shotsGo_length D score 0 segments]
      exact hk
    have := shotsGo_get D score segments 0 kv hk hk2
    rw [show ((capture_screenshots D score segments dir0).2).get ⟨kv, hk⟩
        = (shotsGo D score 0 segments).get ⟨kv, hk⟩ from rfl]
    rw [this]
    simp

/-- C10: the frame selector applies no validation to degenerate moments
(`stop ≤ start`): the candidate count is still exactly 2 (the clamp
floor), every candidate lies at or before the moment's start, and the
loop still selects a time and writes a screenshot for such a moment at
its index instead of raising or skipping. -/
theorem C10_degenerate_moment_no_validation (start stop D : ℚ) (h : stop ≤ start) :
    numCandidates (stop - start) = 2 ∧
    (∀ t ∈ candidateTimes start stop D, t ≤ start) ∧
    (∀ (score : ℚ → ℚ) (dir0 : Option (List String)) (m : Moment),
      m.start = start → m.stop = stop →
      ∀ pre post : List Moment,
        ((capture_screenshots D score (pre ++ m :: post) dir0).2).get? pre.length
          = some (shotName pre.length,
              selectBest score (candidateTimes start stop D))) := by
  have hd : stop - start ≤ 0 := sub_nonpos.mpr h
  refine ⟨?_, ?_, ?_⟩
  · have htr : pyTrunc ((stop - start) / 3) ≤ 0 := by
      have hdiv : (stop - start) / 3 ≤ 0 :=
        div_nonpos_of_nonpos_of_nonneg hd (by norm_num)
      unfold pyTrunc
      split
      · next h0 =>
          have hz : (stop - start) / 3 = 0 := le_antisymm hdiv h0
          rw [hz]
          simp
      · exact Int.ceil_le.mpr (by exact_mod_cast hdiv)
    unfold numCandidates
    omega
  · intro t ht
    have hct : candidateTimes start stop D
        = (List.range (numCandidates (stop - start))).map
            (fun (k : ℕ) => min (start + (stop - start) * ((k : ℚ) + 1)
                / ((numCandidates (stop - start) : ℚ) + 1)) (D - 1 / 10)) := rfl
    rw [hct] at ht
    obtain ⟨k, _, hkt⟩ := List.mem_map.mp ht
    have hnum : (stop - start) * ((k : ℚ) + 1) ≤ 0 :=
      mul_nonpos_of_nonpos_of_nonneg hd (by positivity)
    have hfrac : (stop - start) * ((k : ℚ) + 1)
        / ((numCandidates (stop - start) : ℚ) + 1) ≤ 0 :=
      div_nonpos_of_nonpos_of_nonneg hnum (by positivity)
    calc t = min (start + (stop - start) * ((k : ℚ) + 1)
              / ((numCandidates (stop - start) : ℚ) + 1)) (D - 1 / 10) := hkt.symm
      _ ≤ start + (stop - start) * ((k : ℚ) + 1)
              / ((numCandidates (stop - start) : ℚ) + 1) := min_le_left _ _
      _ ≤ start := by linarith
  · intro score dir0 m hms hme pre post
    have := shotsGo_get_append D score pre post m 0
    rw [show ((capture_screenshots D score (pre ++ m :: post) dir0).2)
        = shotsGo D score 0 (pre ++ m :: post) from rfl]
    rw [this, hms, hme]
    rw [show 0 + pre.length = pre.length from Nat.zero_add _]

/-- C10 witness: the theorem applied to the degenerate interval
`[5, 3]` (negative duration) in a 100-second video. -/
theorem C10_degenerate_moment_no_validation_witness :
    numCandidates ((3:ℚ) - 5) = 2 ∧
    (∀ t ∈ candidateTimes 5 3 100, t ≤ (5:ℚ)) ∧
    (∀ (score : ℚ → ℚ) (dir0 : Option (List String)) (m : Moment),
      m.start = 5 → m.stop = 3 →
      ∀ pre post : List Moment,
        ((capture_screenshots 100 score (pre ++ m :: post) dir0).2).get? pre.length
          = some (shotName pre.length,
              selectBest score (candidateTimes 5 3 100))) :=
  C10_degenerate_moment_no_validation 5 3 100 (by norm_num)

/-- C8 counterexample: with 20 input segments (≥ 15) the distiller
forwards a chat reply containing a single key moment, so the output
key-moment count is 1, outside the claimed 5–15 range — the source
applies no count validation to the reply. -/
theorem C8_count_bound_counterexample :
    process_and_summarize
        (fun _ => Except.ok ⟨"s", [⟨"t", 0, 1, "x"⟩]⟩) none
        (List.replicate 20 ⟨0, 1, "seg"⟩) "v"
      = Except.ok ⟨"s", [⟨"t", 0, 1, "x"⟩]⟩ ∧
    (List.replicate 20 (⟨0, 1, "seg"⟩ : TranscriptSegment)).length = 20 ∧
    (DistilledContent.mk "s" [⟨"t", 0, 1, "x"⟩]).key_moments.length = 1 ∧
    ¬ (5 ≤ (DistilledContent.mk "s" [⟨"t", 0, 1, "x"⟩]).key_moments.length ∧
        (DistilledContent.mk "s" [⟨"t", 0, 1, "x"⟩]).key_moments.length ≤ 15) := by
  refine ⟨rfl, by simp, rfl, by simp⟩

/-- C8 amended: the Knowledge Distiller performs no validation of the
key-moment count — its output is exactly the parsed chat reply, so the
output count equals whatever the reply contains (the 5–15 target and
the never-more-than-input bound are only prompt suggestions, not
properties of the code). -/
theorem C8_no_count_enforcement (chat : String → Except Unit DistilledContent)
    (termsFile : Option (List (String × Glossary)))
    (segments : List TranscriptSegment) (video_name : String)
    (d : DistilledContent)
    (h : chat (distillPrompt (text_to_process segments)
          (terms_section (load_terms termsFile video_name))) = Except.ok d) :
    process_and_summarize chat termsFile segments video_name = Except.ok d := by
  unfold process_and_summarize
  exact h

/-- C8 witness: the amended theorem at a concrete oracle whose reply
carries zero key moments. -/
theorem C8_no_count_enforcement_witness :
    process_and_summarize (fun _ => Except.ok ⟨"e", []⟩) none
        [⟨0, 1, "a"⟩] "v"
      = Except.ok ⟨"e", []⟩ :=
  C8_no_count_enforcement (fun _ => Except.ok ⟨"e", []⟩) none
    [⟨0, 1, "a"⟩] "v" ⟨"e", []⟩ rfl

/-- C9: the `<stem>.processing` marker is on disk in the filesystem the
background job runs in (created before the pipeline script starts) and
is absent from the final filesystem on every exit path of the job,
success or failure, so the marker is present only while work for that
video is active. -/
theorem C9_processing_marker_scoped (stem : String) (job : FS → Except FS FS)
    (fs : FS) :
    flookup (FKey.processingMarker stem) (run_script_jobFS stem fs)
      = some FileData.marker ∧
    flookup (FKey.processingMarker stem) (run_script stem job fs) = none := by
  refine ⟨flookup_fwrite_self _ _ _, ?_⟩
  unfold run_script
  cases job (run_script_jobFS stem fs) with
  | ok fs2 => exact flookup_ferase_self _ _
  | error fs2 => exact flookup_ferase_self _ _

/-- C1 counterexample: a batch of two videos where audio extraction
fails for the first.  `extract_audio` runs outside the try block of
lines 604-623, so the exception is not caught: the batch aborts with
the filesystem unchanged and the second video is never processed. -/
theorem C1_extraction_failure_aborts_batch :
    runBatch
      (fun v => if v.stem = "a"
        then ⟨Except.error (), Except.ok [], Except.ok ⟨"s", []⟩,
              Except.ok (), Except.ok ⟨"q", []⟩⟩
        else ⟨Except.ok (), Except.ok [], Except.ok ⟨"s", []⟩,
              Except.ok (), Except.ok ⟨"q", []⟩⟩)
      [⟨"a", "a.mp4"⟩, ⟨"b", "b.mp4"⟩] []
      = Except.error [] := rfl

/-- C1 amended: on a cache miss, a failure in transcription or
distillation is caught and the orchestrator advances to the next video
without aborting the batch, and the temp audio file is deleted on every
exit path of the transcription-through-distillation try block (success
or failure); an audio-extraction failure, by contrast, propagates
uncaught and aborts the batch. -/
theorem C1_audio_cleanup_and_catch_scope (env : Env) (v : VideoFile) (fs : FS)
    (hnc : flookup (FKey.transcriptionJson v.stem) fs = none) :
    (env.extract = Except.ok () →
      ∃ fs2 c, processVideo env v fs = Except.ok (fs2, c) ∧
        flookup (FKey.audioTemp v.stem) fs2 = none) ∧
    (env.extract = Except.error () →
      processVideo env v fs = Except.error fs) := by
  constructor
  · intro hx
    unfold processVideo
    rw [hnc]
    dsimp only
    rw [hx]
    dsimp only
    cases ht : env.transcription with
    | error e => exact ⟨_, _, rfl, flookup_ferase_self _ _⟩
    | ok segs =>
      dsimp only
      cases hd : env.distill with
      | error e => exact ⟨_, _, rfl, flookup_ferase_self _ _⟩
      | ok d =>
        dsimp only
        refine ⟨_, _, rfl, ?_⟩
        rw [stage2_keeps_audio]
        exact flookup_ferase_self _ _
  · intro hx
    unfold processVideo
    rw [hnc]
    dsimp only
    rw [hx]

/-- C1 witness: the amended theorem at a concrete video whose
transcription call fails — the run still returns, with no temp audio
file left behind. -/
theorem C1_audio_cleanup_and_catch_scope_witness :
    (Env.extract ⟨Except.ok (), Except.error (), Except.ok ⟨"s", []⟩,
        Except.ok (), Except.ok ⟨"q", []⟩⟩ = Except.ok () →
      ∃ fs2 c, processVideo
          ⟨Except.ok (), Except.error (), Except.ok ⟨"s", []⟩,
           Except.ok (), Except.ok ⟨"q", []⟩⟩
          ⟨"a", "a.mp4"⟩ [] = Except.ok (fs2, c) ∧
        flookup (FKey.audioTemp "a") fs2 = none) ∧
    (Env.extract ⟨Except.ok (), Except.error (), Except.ok ⟨"s", []⟩,
        Except.ok (), Except.ok ⟨"q", []⟩⟩ = Except.error () →
      processVideo
          ⟨Except.ok (), Except.error (), Except.ok ⟨"s", []⟩,
           Except.ok (), Except.ok ⟨"q", []⟩⟩
          ⟨"a", "a.mp4"⟩ [] = Except.error []) :=
  C1_audio_cleanup_and_catch_scope
    ⟨Except.ok (), Except.error (), Except.ok ⟨"s", []⟩,
     Except.ok (), Except.ok ⟨"q", []⟩⟩
    ⟨"a", "a.mp4"⟩ [] rfl

/-- C2: after a first run that produced both cache artifacts, a second
run on the same video loads `<stem>_transcription.json`, skips audio
extraction, transcription and distillation, skips quiz synthesis
because `<stem>_quiz.json` exists, and leaves the on-disk
DistilledContent identical. -/
theorem C2_cache_idempotence (env1 env2 : Env) (v : VideoFile) (fs0 : FS)
    (segs : List TranscriptSegment) (d : DistilledContent) (q : Quiz)
    (hj0 : flookup (FKey.transcriptionJson v.stem) fs0 = none)
    (hq0 : flookup (FKey.quizJson v.stem) fs0 = none)
    (hx : env1.extract = Except.ok ()) (ht : env1.transcription = Except.ok segs)
    (hd : env1.distill = Except.ok d) (hs : env1.shots = Except.ok ())
    (hz : env1.quiz = Except.ok q) :
    ∃ fs1 c1 fs2,
      processVideo env1 v fs0 = Except.ok (fs1, c1) ∧
      processVideo env2 v fs1 = Except.ok (fs2, noCalls) ∧
      flookup (FKey.transcriptionJson v.stem) fs1 = some (FileData.json d) ∧
      flookup (FKey.transcriptionJson v.stem) fs2
        = flookup (FKey.transcriptionJson v.stem) fs1 := by
  obtain ⟨fs1, hrun1, hj1, hq1, _⟩ :=
    processVideo_fresh_success env1 v fs0 segs d q hj0 hq0 hx ht hd hs hz
  obtain ⟨fs2, hrun2, hj2, _⟩ := processVideo_second_run env2 v fs1 d q hj1 hq1
  exact ⟨fs1, _, fs2, hrun1, hrun2, hj1, by rw [hj2, hj1]⟩

/-- C2 witness: the theorem at a concrete video, empty initial
filesystem and fully successful oracles. -/
theorem C2_cache_idempotence_witness :
    ∃ fs1 c1 fs2,
      processVideo
          ⟨Except.ok (), Except.ok [], Except.ok ⟨"s", []⟩,
           Except.ok (), Except.ok ⟨"q", []⟩⟩ ⟨"a", "a.mp4"⟩ []
        = Except.ok (fs1, c1) ∧
      processVideo
          ⟨Except.ok (), Except.ok [], Except.ok ⟨"s", []⟩,
           Except.ok (), Except.ok ⟨"q", []⟩⟩ ⟨"a", "a.mp4"⟩ fs1
        = Except.ok (fs2, noCalls) ∧
      flookup (FKey.transcriptionJson "a") fs1
        = some (FileData.json ⟨"s", []⟩) ∧
      flookup (FKey.transcriptionJson "a") fs2
        = flookup (FKey.transcriptionJson "a") fs1 :=
  C2_cache_idempotence
    ⟨Except.ok (), Except.ok [], Except.ok ⟨"s", []⟩,
     Except.ok (), Except.ok ⟨"q", []⟩⟩
    ⟨Except.ok (), Except.ok [], Except.ok ⟨"s", []⟩,
     Except.ok (), Except.ok ⟨"q", []⟩⟩
    ⟨"a", "a.mp4"⟩ [] [] ⟨"s", []⟩ ⟨"q", []⟩
    rfl rfl rfl rfl rfl rfl rfl

/-- C7: with the transcription cache on disk, any outcome of the
frame-selection / report / quiz stage — including failures, which are
caught at line 661 — returns normally (the batch loop continues) and
leaves the cached `<stem>_transcription.json`, and any existing
`<stem>_quiz.json`, unchanged. -/
theorem C7_stage2_failure_no_rollback (env : Env) (v : VideoFile) (fs : FS)
    (d : DistilledContent)
    (hj : flookup (FKey.transcriptionJson v.stem) fs = some (FileData.json d)) :
    ∃ fs2 c, processVideo env v fs = Except.ok (fs2, c) ∧
      flookup (FKey.transcriptionJson v.stem) fs2 = some (FileData.json d) ∧
      (∀ q, flookup (FKey.quizJson v.stem) fs = some (FileData.quiz q) →
        flookup (FKey.quizJson v.stem) fs2 = some (FileData.quiz q)) := by
  refine ⟨(stage2 env v d fs).1, _, processVideo_cache_hit env v fs d hj, ?_, ?_⟩
  · rw [stage2_keeps_transcription]
    exact hj
  · intro q hq
    exact (stage2_quiz_cached env v d fs q hq).2

/-- C7 witness: the theorem at a concrete video whose screenshot stage
fails, with both caches on disk. -/
theorem C7_stage2_failure_no_rollback_witness :
    ∃ fs2 c,
      processVideo
          ⟨Except.ok (), Except.ok [], Except.ok ⟨"s", []⟩,
           Except.error (), Except.ok ⟨"q", []⟩⟩ ⟨"a", "a.mp4"⟩
          [(FKey.transcriptionJson "a", FileData.json ⟨"s", []⟩),
           (FKey.quizJson "a", FileData.quiz ⟨"q", []⟩)]
        = Except.ok (fs2, c) ∧
      flookup (FKey.transcriptionJson "a") fs2
        = some (FileData.json ⟨"s", []⟩) ∧
      (∀ q, flookup (FKey.quizJson "a")
          [(FKey.transcriptionJson "a", FileData.json ⟨"s", []⟩),
           (FKey.quizJson "a", FileData.quiz ⟨"q", []⟩)]
          = some (FileData.quiz q) →
        flookup (FKey.quizJson "a") fs2 = some (FileData.quiz q)) :=
  C7_stage2_failure_no_rollback
    ⟨Except.ok (), Except.ok [], Except.ok ⟨"s", []⟩,
     Except.error (), Except.ok ⟨"q", []⟩⟩
    ⟨"a", "a.mp4"⟩
    [(FKey.transcriptionJson "a", FileData.json ⟨"s", []⟩),
     (FKey.quizJson "a", FileData.quiz ⟨"q", []⟩)]
    ⟨"s", []⟩ rfl
